import Mathlib

/-!
Verification of the vinstr hardware-counter multiplexer
(drivers/gpu/arm/t8xx/r7p0/mali_kbase_vinstr.c).

The driver code is shallowly embedded: CPU-visible dump buffers are modelled
as functions from a 32-bit-word index (byte offset divided by 4) to the u32
value stored there, machine integers are Nat with explicit saturation at
U32_MAX where the source saturates, and the fallible external collaborators
(kmalloc, kbase_create_context, kbase_instr_hwcnt_*, copy_to_user) are
modelled as oracle parameters telling whether each call succeeds.

Layout of the file: all definitions first, then the theorems.
-/

def NR_CNT_BLOCKS_PER_GROUP : Nat := 8
def NR_CNT_PER_BLOCK : Nat := 64
def NR_BYTES_PER_CNT : Nat := 4
def NR_BYTES_PER_HDR : Nat := 16
def PRFCNT_EN_MASK_OFFSET : Nat := 8
def U32_MAX : Nat := 4294967295

/-- A CPU-visible buffer, indexed by 32-bit word (byte offset / 4). -/
def Buffer : Type := Nat → Nat

/-- Pointwise store used to model a write through a u32 pointer. -/
def wstore (d : Buffer) (i v : Nat) : Buffer :=
  fun k => if k = i then v else d k

/-- memcpy of n 32-bit words from src to dst, both at word offset base
(all memcpy calls in the source copy NR_BYTES_PER_HDR = 16 bytes = 4 words
at the same offset in both buffers). -/
def memcpyWords (dst src : Buffer) (base n : Nat) : Buffer :=
  fun k => if base ≤ k ∧ k < base + n then src k else dst k

/-- In-place bitwise AND through a u32 pointer: *mask &= m. -/
def maskAnd (dst : Buffer) (i m : Nat) : Buffer :=
  wstore dst i (dst i &&& m)

/-- One saturating addition from the inner loop of accum_dump_buffer:
if U32_MAX - d is smaller than s the sum would wrap, so clamp at U32_MAX. -/
def accumWord (d s : Nat) : Nat :=
  if U32_MAX - d < s then U32_MAX else d + s

/-- Inner loop of accum_dump_buffer: accumulate j consecutive counter words
starting at word index p (the header words have already been skipped). -/
def accumCounters (src : Buffer) : Nat → Nat → Buffer → Buffer
  | _, 0, d => d
  | p, j + 1, d => accumCounters src (p + 1) j (wstore d p (accumWord (d p) (src p)))

/-- Outer loop of accum_dump_buffer: walk n 256-byte (64-word) blocks starting
at word index base, skipping the 16-byte (4-word) header of each block. -/
def accumBlocks (src : Buffer) : Nat → Nat → Buffer → Buffer
  | _, 0, d => d
  | base, n + 1, d =>
      accumBlocks src (base + 64) n
        (accumCounters src (base + NR_BYTES_PER_HDR / 4) 60 d)

/-- accum_dump_buffer: the loop runs for i = 0, 256, 512, ... while
i < dump_size, so it visits (dump_size + 255) / 256 blocks. -/
def accum_dump_buffer (dst src : Buffer) (dump_size : Nat) : Buffer :=
  accumBlocks src 0 ((dump_size + 255) / 256) dst

/-- The four 32-bit category masks (JM, TILER, SHADER, MMU_L2). -/
structure Bitmap4 where
  jm : Nat
  tiler : Nat
  shader : Nat
  mmu_l2 : Nat
deriving DecidableEq

/-- hwcnt_bitmap_set: dst gets src, category by category. -/
def hwcnt_bitmap_set (_dst src : Bitmap4) : Bitmap4 :=
  ⟨src.jm, src.tiler, src.shader, src.mmu_l2⟩

/-- hwcnt_bitmap_union: dst |= src, category by category. -/
def hwcnt_bitmap_union (dst src : Bitmap4) : Bitmap4 :=
  ⟨dst.jm ||| src.jm, dst.tiler ||| src.tiler,
    dst.shader ||| src.shader, dst.mmu_l2 ||| src.mmu_l2⟩

/-- Copy one 16-byte block header at word offset base and AND the enable
mask (byte offset PRFCNT_EN_MASK_OFFSET = 8, word offset 2) with m; this is
the per-block body of patch_dump_buffer_hdr_v5. -/
def patchBlockV5 (d src : Buffer) (base m : Nat) : Buffer :=
  maskAnd (memcpyWords d src base (NR_BYTES_PER_HDR / 4)) (base + PRFCNT_EN_MASK_OFFSET / 4) m

/-- The MMU/L2 and shader loops of patch_dump_buffer_hdr_v5: patch n
consecutive 64-word blocks starting at word offset base, all with mask m. -/
def patchLoopV5 (src : Buffer) (m : Nat) : Nat → Nat → Buffer → Buffer
  | _, 0, d => d
  | base, n + 1, d => patchLoopV5 src m (base + 64) n (patchBlockV5 d src base m)

/-- patch_dump_buffer_hdr_v5: JM block at word 0, tiler block at word 64,
then num_l2_slices MMU/L2 blocks, then num_cores shader blocks. -/
def patch_dump_buffer_hdr_v5 (nr_l2 nr_sc : Nat) (bm : Bitmap4) (dst src : Buffer) : Buffer :=
  patchLoopV5 src bm.shader (128 + 64 * nr_l2) nr_sc
    (patchLoopV5 src bm.mmu_l2 128 nr_l2
      (patchBlockV5 (patchBlockV5 dst src 0 bm.jm) src 64 bm.tiler))

/-- The category mask the v5 patch applies to block index b: block 0 is the
job manager, block 1 the tiler, blocks 2 .. 2+nr_l2-1 the MMU/L2 slices and
the remaining blocks the shader cores. -/
def v5MaskOf (bm : Bitmap4) (nr_l2 b : Nat) : Nat :=
  if b = 0 then bm.jm
  else if b = 1 then bm.tiler
  else if b < 2 + nr_l2 then bm.mmu_l2
  else bm.shader

/-- Word offsets (relative to the start of a core group) of the seven header
memcpy calls in patch_dump_buffer_hdr_v4, in source order:
SC0, SC1, SC2, SC3 (blocks 0-3), TILER (block 4), MMU_L2 (block 5),
JM (block 7; 7 * NR_CNT_PER_BLOCK * NR_BYTES_PER_CNT bytes). -/
def v4HdrOffsets : List Nat := [0, 64, 128, 192, 256, 320, 448]

/-- The seven enable-mask patches of patch_dump_buffer_hdr_v4, in source
order, as (group-relative word offset of the mask word, mask) pairs. -/
def v4MaskPatches (bm : Bitmap4) : List (Nat × Nat) :=
  [(2, bm.shader), (66, bm.shader), (130, bm.shader), (194, bm.shader),
   (258, bm.tiler), (322, bm.mmu_l2), (450, bm.jm)]

/-- Apply the seven header memcpy calls of one v4 core group at word base g,
in source order. -/
def applyHdrCopies (src : Buffer) (g : Nat) : List Nat → Buffer → Buffer
  | [], d => d
  | b :: offs, d =>
      applyHdrCopies src g offs (memcpyWords d src (g + b) (NR_BYTES_PER_HDR / 4))

/-- Apply the seven enable-mask AND patches of one v4 core group at word
base g, in source order. -/
def applyMaskAnds (g : Nat) : List (Nat × Nat) → Buffer → Buffer
  | [], d => d
  | p :: l, d => applyMaskAnds g l (maskAnd d (g + p.1) p.2)

/-- The body of the core-group loop of patch_dump_buffer_hdr_v4: all seven
header copies, then all seven enable-mask patches. -/
def patchGroupV4 (bm : Bitmap4) (g : Nat) (d src : Buffer) : Buffer :=
  applyMaskAnds g (v4MaskPatches bm) (applyHdrCopies src g v4HdrOffsets d)

/-- The core-group loop of patch_dump_buffer_hdr_v4: group i starts at word
i * 512 (group_size = 8 * 64 * 4 bytes = 512 words). -/
def patchLoopV4 (bm : Bitmap4) (src : Buffer) : Nat → Buffer → Buffer
  | 0, d => d
  | i + 1, d => patchGroupV4 bm (512 * i) (patchLoopV4 bm src i d) src

/-- patch_dump_buffer_hdr_v4 for a device with nr_cg core groups. -/
def patch_dump_buffer_hdr_v4 (nr_cg : Nat) (bm : Bitmap4) (dst src : Buffer) : Buffer :=
  patchLoopV4 bm src nr_cg dst

/-- The category mask the v4 patch applies to group-relative block index b:
blocks 0-3 are shader cores, block 4 the tiler, block 5 the MMU/L2 and
block 7 the job manager (block 6 is reserved and never touched). -/
def v4MaskOf (bm : Bitmap4) (b : Nat) : Nat :=
  if b < 4 then bm.shader
  else if b = 4 then bm.tiler
  else if b = 5 then bm.mmu_l2
  else bm.jm

/-- Error codes returned by the driver entry points. -/
def EINVAL : Int := -22

def EFAULT : Int := -14

/-- The device topology facts the driver reads from kbdev: the
BASE_HW_FEATURE_V4 capability flag, gpu_props.num_core_groups,
props.l2_props.num_l2_slices and props.coherency_info.group[0].num_cores. -/
structure Device where
  hasV4 : Bool
  num_core_groups : Nat
  num_l2_slices : Nat
  num_cores : Nat
deriving DecidableEq

/-- kbase_vinstr_dump_size, computed from the device each time it is
called. -/
def kbase_vinstr_dump_size (kbdev : Device) : Nat :=
  if kbdev.hasV4 = true then
    kbdev.num_core_groups * NR_CNT_BLOCKS_PER_GROUP * NR_CNT_PER_BLOCK * NR_BYTES_PER_CNT
  else
    (2 + kbdev.num_l2_slices + kbdev.num_cores) * NR_CNT_PER_BLOCK * NR_BYTES_PER_CNT

/-- struct kbase_vinstr_client.  The dump_buffer destination is kept as an
opaque address; the data delivered to it is modelled as an output of
kbase_vinstr_dump instead of as a memory write. -/
structure VinstrClient where
  kernel : Bool
  pending : Bool
  dump_buffer : Nat
  dump_size : Nat
  bitmap : Bitmap4
  accum_buffer : Buffer

/-- struct kbase_vinstr_context.  kctx models the existence of the
hardware-backed context together with its dump-buffer mapping; cpu_va holds
the current contents of the shared dump buffer; created and destroyed are
ghost counters of the calls to create_vinstr_kctx that succeeded and to
destroy_vinstr_kctx; clients is the list of (handle, client) pairs with the
most recently attached client at the head (list_add), and nextId is the
ghost allocator of fresh handles standing in for pointer identity. -/
structure VinstrContext where
  kbdev : Device
  kctx : Bool
  cpu_va : Buffer
  dump_size : Nat
  bitmap : Bitmap4
  reprogram : Bool
  nclients : Nat
  clients : List (Nat × VinstrClient)
  nextId : Nat
  created : Nat
  destroyed : Nat

/-- kbase_vinstr_init: kzalloc gives an all-zero context. -/
def kbase_vinstr_init (kbdev : Device) : VinstrContext :=
  { kbdev := kbdev
    kctx := false
    cpu_va := fun _ => 0
    dump_size := 0
    bitmap := ⟨0, 0, 0, 0⟩
    reprogram := false
    nclients := 0
    clients := []
    nextId := 0
    created := 0
    destroyed := 0 }

/-- create_vinstr_kctx on success: a context is created, the kernel dump
buffer of kbase_vinstr_dump_size bytes is mapped, and the hardware is
enabled.  The freshly mapped buffer is modelled as all-zero. -/
def create_vinstr_kctx (ctx : VinstrContext) : VinstrContext :=
  { ctx with
    kctx := true
    dump_size := kbase_vinstr_dump_size ctx.kbdev
    cpu_va := fun _ => 0
    created := ctx.created + 1 }

/-- destroy_vinstr_kctx: disable the hardware, unmap the dump buffer and
destroy the context. -/
def destroy_vinstr_kctx (ctx : VinstrContext) : VinstrContext :=
  { ctx with
    kctx := false
    destroyed := ctx.destroyed + 1 }

structure AttachResult where
  handle : Option Nat
  ctx : VinstrContext

/-- The tail of kbase_vinstr_attach_client after the first-client branch:
map_client_accum_buffer (kzalloc of kbase_vinstr_dump_size bytes), with its
error path freeing the client and, if this was the first client
(ctx->nclients is still 0), destroying the just-created context; on success
the client is prepended to the list and nclients incremented. -/
def attach_finish (ctx : VinstrContext) (cli : VinstrClient) (okAccum : Bool) : AttachResult :=
  if okAccum = false then
    ⟨none, if ctx.nclients = 0 then destroy_vinstr_kctx ctx else ctx⟩
  else
    ⟨some ctx.nextId,
      { ctx with
        nclients := ctx.nclients + 1
        clients := (ctx.nextId,
          { cli with
            dump_size := kbase_vinstr_dump_size ctx.kbdev
            accum_buffer := fun _ => 0 }) :: ctx.clients
        nextId := ctx.nextId + 1 }⟩

/-- kbase_vinstr_attach_client.  okAllocCli is the kmalloc of the client
record, okKctx the success of create_vinstr_kctx, okAccum the kzalloc of the
accumulation buffer. -/
def kbase_vinstr_attach_client (ctx : VinstrContext) (kernel : Bool)
    (dump_buffer : Nat) (bitmap : Bitmap4)
    (okAllocCli okKctx okAccum : Bool) : AttachResult :=
  if okAllocCli = false then ⟨none, ctx⟩
  else
    let cli : VinstrClient :=
      { kernel := kernel
        pending := true
        dump_buffer := dump_buffer
        dump_size := 0
        bitmap := hwcnt_bitmap_set ⟨0, 0, 0, 0⟩ bitmap
        accum_buffer := fun _ => 0 }
    let ctx1 := { ctx with
                  bitmap := hwcnt_bitmap_union ctx.bitmap cli.bitmap
                  reprogram := true }
    if ctx1.nclients = 0 then
      let ctx2 := { ctx1 with bitmap := hwcnt_bitmap_set ctx1.bitmap cli.bitmap }
      if okKctx = false then ⟨none, ctx2⟩
      else attach_finish { create_vinstr_kctx ctx2 with reprogram := false }
        { cli with pending := false } okAccum
    else attach_finish ctx1 cli okAccum

/-- The list_for_each_entry_safe loop of kbase_vinstr_detach_client: remove
the first list entry whose identity matches cli (and report whether one was
found). -/
def removeFirst (id : Nat) : List (Nat × VinstrClient) → Bool × List (Nat × VinstrClient)
  | [] => (false, [])
  | p :: rest =>
      if p.1 = id then (true, rest)
      else
        let r := removeFirst id rest
        (r.1, p :: r.2)

/-- The bitmap-rebuild loop of kbase_vinstr_detach_client: start from the
zero bitmap and union in every remaining client's bitmap. -/
def unionAllBitmaps (l : List (Nat × VinstrClient)) : Bitmap4 :=
  l.foldl (fun acc p => hwcnt_bitmap_union acc p.2.bitmap) ⟨0, 0, 0, 0⟩

/-- kbase_vinstr_detach_client. -/
def kbase_vinstr_detach_client (ctx : VinstrContext) (cli : Nat) : VinstrContext :=
  let r := removeFirst cli ctx.clients
  let ctx1 :=
    if r.1 = true then
      let c := { ctx with
                 reprogram := true
                 clients := r.2
                 nclients := ctx.nclients - 1 }
      if c.nclients = 0 then destroy_vinstr_kctx c else c
    else ctx
  { ctx1 with bitmap := unionAllBitmaps ctx1.clients }

/-- Find the client record a handle points at (pointer dereference in C). -/
def lookupClient (id : Nat) : List (Nat × VinstrClient) → Option VinstrClient
  | [] => none
  | p :: rest => if p.1 = id then some p.2 else lookupClient id rest

/-- Mutate through a client handle: update the first entry with this id. -/
def updateClient (id : Nat) (f : VinstrClient → VinstrClient) :
    List (Nat × VinstrClient) → List (Nat × VinstrClient)
  | [] => []
  | p :: rest =>
      if p.1 = id then (p.1, f p.2) :: rest else p :: updateClient id f rest

/-- The per-client body of accum_clients: pending clients are skipped;
otherwise the headers are patched (v4 or v5 by the capability flag) and the
shared buffer is accumulated into the client's buffer. -/
def accum_client_step (kbdev : Device) (cpu_va : Buffer) (cli : VinstrClient) : VinstrClient :=
  if cli.pending = true then cli
  else
    let patched : Buffer :=
      if kbdev.hasV4 = true then
        patch_dump_buffer_hdr_v4 kbdev.num_core_groups cli.bitmap
          cli.accum_buffer cpu_va
      else
        patch_dump_buffer_hdr_v5 kbdev.num_l2_slices kbdev.num_cores
          cli.bitmap cli.accum_buffer cpu_va
    { cli with accum_buffer := accum_dump_buffer patched cpu_va cli.dump_size }

/-- accum_clients. -/
def accum_clients (ctx : VinstrContext) : VinstrContext :=
  { ctx with
    clients := ctx.clients.map
      (fun p => (p.1, accum_client_step ctx.kbdev ctx.cpu_va p.2)) }

structure DumpResult where
  err : Int
  ctx : VinstrContext
  delivered : Option Buffer

/-- kbase_vinstr_dump.  hwbuf is the data the hardware wrote into the shared
dump buffer when the request/wait pair succeeded; reqErr and waitErr are the
results of kbase_instr_hwcnt_request_dump and kbase_instr_hwcnt_wait_for_dump;
okCopy tells whether copy_to_user succeeded (kernel clients use memcpy, which
cannot fail); reprogErr is the result of reprogram_hwcnt.  The delivered
field is the data copied to the target client's destination buffer, if the
copy happened.  Passing an invalid non-null handle is undefined behaviour in
the C source (the pointer is dereferenced); it is modelled as EINVAL. -/
def kbase_vinstr_dump (ctx : VinstrContext) (cli : Option Nat) (hwbuf : Buffer)
    (reqErr waitErr : Int) (okCopy : Bool) (reprogErr : Int) : DumpResult :=
  match cli with
  | none => ⟨EINVAL, ctx, none⟩
  | some id =>
    if reqErr ≠ 0 then ⟨reqErr, ctx, none⟩
    else if waitErr ≠ 0 then ⟨waitErr, ctx, none⟩
    else
      let ctx2 := accum_clients { ctx with cpu_va := hwbuf }
      match lookupClient id ctx2.clients with
      | none => ⟨EINVAL, ctx2, none⟩
      | some c =>
        if c.kernel = false ∧ okCopy = false then ⟨EFAULT, ctx2, none⟩
        else
          let ctx3 := { ctx2 with
            clients := updateClient id
              (fun c => { c with accum_buffer := fun _ => 0 }) ctx2.clients }
          if ctx3.reprogram = true then
            if reprogErr ≠ 0 then ⟨reprogErr, ctx3, some c.accum_buffer⟩
            else
              ⟨0,
                { ctx3 with
                  reprogram := false
                  clients := ctx3.clients.map
                    (fun p => (p.1, { p.2 with pending := false })) },
                some c.accum_buffer⟩
          else ⟨0, ctx3, some c.accum_buffer⟩

/-- kbase_vinstr_clear: like a dump but with an extra hardware counter-clear
step and no delivery; only the calling client's accumulation buffer is
zeroed. -/
def kbase_vinstr_clear (ctx : VinstrContext) (cli : Option Nat) (hwbuf : Buffer)
    (reqErr waitErr clearErr reprogErr : Int) : Int × VinstrContext :=
  match cli with
  | none => (EINVAL, ctx)
  | some id =>
    if reqErr ≠ 0 then (reqErr, ctx)
    else if waitErr ≠ 0 then (waitErr, ctx)
    else if clearErr ≠ 0 then (clearErr, ctx)
    else
      let ctx2 := accum_clients { ctx with cpu_va := hwbuf }
      let ctx3 := { ctx2 with
        clients := updateClient id
          (fun c => { c with accum_buffer := fun _ => 0 }) ctx2.clients }
      if ctx3.reprogram = true then
        if reprogErr ≠ 0 then (reprogErr, ctx3)
        else
          (0,
            { ctx3 with
              reprogram := false
              clients := ctx3.clients.map
                (fun p => (p.1, { p.2 with pending := false })) })
      else (0, ctx3)

/-- The superset-mask invariant: the context bitmap is the union of the
bitmaps of all currently attached clients. -/
def maskInv (ctx : VinstrContext) : Prop :=
  ctx.bitmap = unionAllBitmaps ctx.clients

/-- The context-lifecycle invariant: nclients counts the client list, the
hardware-backed context exists exactly when there are clients, and the
ghost creation and destruction counts differ by 1 exactly when it exists. -/
def lifecycleInv (ctx : VinstrContext) : Prop :=
  ctx.nclients = ctx.clients.length ∧
  (ctx.kctx = true ↔ 0 < ctx.nclients) ∧
  ctx.created = ctx.destroyed + (if ctx.kctx = true then 1 else 0)

/-- Observation of the pending flags of all attached clients. -/
def pendingMap (l : List (Nat × VinstrClient)) : List (Nat × Bool) :=
  l.map (fun p => (p.1, p.2.pending))

def defaultClient : VinstrClient :=
  { kernel := false
    pending := false
    dump_buffer := 0
    dump_size := 0
    bitmap := ⟨0, 0, 0, 0⟩
    accum_buffer := fun _ => 0 }

/-- The accumulation buffer a lookup result points at (a failed lookup is
mapped to a poison buffer so the theorems about it are not vacuous). -/
def accumOf (o : Option VinstrClient) : Buffer :=
  match o with
  | some c => c.accum_buffer
  | none => fun _ => 1

/-- Shorthand for the context state after step 3 of a dump (hardware data
landed in the shared buffer, every non-pending client accumulated). -/
def dumpAccumCtx (ctx : VinstrContext) (hw : Buffer) : VinstrContext :=
  accum_clients { ctx with cpu_va := hw }

/-- Shorthand for the context state after step 4 of a dump (the target
client's accumulation buffer has been zeroed). -/
def zeroTargetCtx (ctx : VinstrContext) (id : Nat) (hw : Buffer) : VinstrContext :=
  { dumpAccumCtx ctx hw with
    clients := updateClient id (fun c => { c with accum_buffer := fun _ => 0 })
      (dumpAccumCtx ctx hw).clients }

/-- Shorthand for a successful step 5 of a dump or clear: the reprogram flag
is dropped and every client's pending flag cleared. -/
def clearPendingCtx (X : VinstrContext) : VinstrContext :=
  { X with
    reprogram := false
    clients := X.clients.map (fun p => (p.1, { p.2 with pending := false })) }

def accumDstW : Buffer := fun _ => 4294967290

def accumSrcW : Buffer := fun _ => 10

/-- Concrete buffers and masks used by the patch witnesses: an all-zero
accumulation buffer, an all-one shared buffer, a full request mask and a
mask requesting no job-manager counters. -/
def patchDstW : Buffer := fun _ => 0

def patchSrcW : Buffer := fun _ => 1

def bmW : Bitmap4 := ⟨15, 15, 15, 15⟩

def bmNoJm : Bitmap4 := ⟨0, 15, 15, 15⟩

/-- Concrete v5 device used by the witnesses: one MMU/L2 slice, one shader
core. -/
def devW : Device := ⟨false, 1, 1, 1⟩

def ctxW0 : VinstrContext := kbase_vinstr_init devW

/-- First attach: a non-kernel client requesting JM counter 1; every
allocation succeeds. -/
def attachW1 : AttachResult :=
  kbase_vinstr_attach_client ctxW0 false 0 ⟨1, 0, 0, 0⟩ true true true

def ctxW1 : VinstrContext := attachW1.ctx

/-- Second attach: a non-kernel client requesting JM counter 2; every
allocation succeeds. -/
def attachW2 : AttachResult :=
  kbase_vinstr_attach_client ctxW1 false 0 ⟨2, 0, 0, 0⟩ true true true

def ctxW2 : VinstrContext := attachW2.ctx

/-- A second attach onto ctxW1 whose accumulation-buffer allocation fails. -/
def attachWF : AttachResult :=
  kbase_vinstr_attach_client ctxW1 false 0 ⟨2, 0, 0, 0⟩ true true false

/-- Concrete hardware dump data used by the witnesses. -/
def hwW : Buffer := fun _ => 7

def cliW0 : VinstrClient := (lookupClient 0 ctxW2.clients).getD defaultClient

def cliW1 : VinstrClient := (lookupClient 1 ctxW2.clients).getD defaultClient

/-! ## Theorems -/

theorem accumWord_eq_min (d s : Nat) (hd : d ≤ U32_MAX) :
    accumWord d s = min (d + s) U32_MAX := by
  unfold accumWord
  split
  · have : U32_MAX < d + s := by omega
    omega
  · have : d + s ≤ U32_MAX := by omega
    omega

theorem accumCounters_char (src : Buffer) :
    ∀ (j p : Nat) (d : Buffer) (k : Nat),
      accumCounters src p j d k =
        if p ≤ k ∧ k < p + j then accumWord (d k) (src k) else d k := by
  intro j
  induction j with
  | zero =>
      intro p d k
      simp only [accumCounters]
      rw [if_neg (by omega)]
  | succ j ih =>
      intro p d k
      simp only [accumCounters]
      rw [ih]
      by_cases hk : k = p
      · subst hk
        rw [if_neg (by omega), if_pos (by omega)]
        simp [wstore]
      · by_cases hk2 : p + 1 ≤ k ∧ k < p + 1 + j
        · rw [if_pos hk2, if_pos (by omega)]
          simp [wstore, hk]
        · rw [if_neg hk2, if_neg (by omega)]
          simp [wstore, hk]

theorem accumBlocks_char (src : Buffer) :
    ∀ (n base : Nat) (d : Buffer) (k : Nat),
      accumBlocks src base n d k =
        if base ≤ k ∧ k < base + 64 * n ∧ 4 ≤ (k - base) % 64 then
          accumWord (d k) (src k)
        else d k := by
  intro n
  induction n with
  | zero =>
      intro base d k
      simp only [accumBlocks]
      rw [if_neg (by omega)]
  | succ n ih =>
      intro base d k
      simp only [accumBlocks, NR_BYTES_PER_HDR]
      rw [ih, accumCounters_char]
      by_cases h1 : base + 64 ≤ k ∧ k < base + 64 + 64 * n ∧ 4 ≤ (k - (base + 64)) % 64
      · rw [if_pos h1,
          if_neg (show ¬(base + 16 / 4 ≤ k ∧ k < base + 16 / 4 + 60) by omega),
          if_pos (by omega)]
      · rw [if_neg h1]
        by_cases h2 : base + 16 / 4 ≤ k ∧ k < base + 16 / 4 + 60
        · rw [if_pos h2, if_pos (by omega)]
        · rw [if_neg h2, if_neg (by omega)]

theorem patchBlockV5_eval (d src : Buffer) (base m k : Nat) :
    patchBlockV5 d src base m k =
      if base ≤ k ∧ k < base + 4 then
        (if k = base + 2 then src k &&& m else src k)
      else d k := by
  simp only [patchBlockV5, maskAnd, wstore, memcpyWords, NR_BYTES_PER_HDR,
    PRFCNT_EN_MASK_OFFSET]
  by_cases hk : k = base + 8 / 4
  · subst hk
    rw [if_pos rfl,
      if_pos (show base ≤ base + 8 / 4 ∧ base + 8 / 4 < base + 16 / 4 by omega),
      if_pos (show base ≤ base + 8 / 4 ∧ base + 8 / 4 < base + 4 by omega),
      if_pos (show base + 8 / 4 = base + 2 by omega)]
  · rw [if_neg hk]
    by_cases hr : base ≤ k ∧ k < base + 16 / 4
    · rw [if_pos hr, if_pos (show base ≤ k ∧ k < base + 4 by omega),
        if_neg (show ¬(k = base + 2) by omega)]
    · rw [if_neg hr, if_neg (show ¬(base ≤ k ∧ k < base + 4) by omega)]

theorem patchLoopV5_char (src : Buffer) (m : Nat) :
    ∀ (n base : Nat) (d : Buffer) (k : Nat),
      patchLoopV5 src m base n d k =
        if base ≤ k ∧ k < base + 64 * n ∧ (k - base) % 64 < 4 then
          (if (k - base) % 64 = 2 then src k &&& m else src k)
        else d k := by
  intro n
  induction n with
  | zero =>
      intro base d k
      simp only [patchLoopV5]
      rw [if_neg (by omega)]
  | succ n ih =>
      intro base d k
      simp only [patchLoopV5]
      rw [ih, patchBlockV5_eval]
      by_cases h1 : base + 64 ≤ k ∧ k < base + 64 + 64 * n ∧ (k - (base + 64)) % 64 < 4
      · rw [if_pos h1,
          if_pos (show base ≤ k ∧ k < base + 64 * (n + 1) ∧ (k - base) % 64 < 4 by omega)]
        by_cases he : (k - (base + 64)) % 64 = 2
        · rw [if_pos he, if_pos (show (k - base) % 64 = 2 by omega)]
        · rw [if_neg he, if_neg (show ¬((k - base) % 64 = 2) by omega)]
      · rw [if_neg h1]
        by_cases h2 : base ≤ k ∧ k < base + 4
        · rw [if_pos h2,
            if_pos (show base ≤ k ∧ k < base + 64 * (n + 1) ∧ (k - base) % 64 < 4 by omega)]
          by_cases he : k = base + 2
          · rw [if_pos he, if_pos (show (k - base) % 64 = 2 by omega)]
          · rw [if_neg he, if_neg (show ¬((k - base) % 64 = 2) by omega)]
        · rw [if_neg h2,
            if_neg (show ¬(base ≤ k ∧ k < base + 64 * (n + 1) ∧ (k - base) % 64 < 4) by omega)]

theorem patch_v5_char (nr_l2 nr_sc : Nat) (bm : Bitmap4) (dst src : Buffer) (k : Nat) :
    patch_dump_buffer_hdr_v5 nr_l2 nr_sc bm dst src k =
      if k < 64 * (2 + nr_l2 + nr_sc) ∧ k % 64 < 4 then
        (if k % 64 = 2 then src k &&& v5MaskOf bm nr_l2 (k / 64) else src k)
      else dst k := by
  unfold patch_dump_buffer_hdr_v5
  rw [patchLoopV5_char, patchLoopV5_char, patchBlockV5_eval, patchBlockV5_eval]
  by_cases hsh : 128 + 64 * nr_l2 ≤ k ∧ k < 128 + 64 * nr_l2 + 64 * nr_sc ∧
      (k - (128 + 64 * nr_l2)) % 64 < 4
  · rw [if_pos hsh, if_pos (show k < 64 * (2 + nr_l2 + nr_sc) ∧ k % 64 < 4 by omega)]
    simp only [v5MaskOf]
    rw [if_neg (show ¬(k / 64 = 0) by omega), if_neg (show ¬(k / 64 = 1) by omega),
      if_neg (show ¬(k / 64 < 2 + nr_l2) by omega)]
    by_cases he : (k - (128 + 64 * nr_l2)) % 64 = 2
    · rw [if_pos he, if_pos (show k % 64 = 2 by omega)]
    · rw [if_neg he, if_neg (show ¬(k % 64 = 2) by omega)]
  · rw [if_neg hsh]
    by_cases hmmu : 128 ≤ k ∧ k < 128 + 64 * nr_l2 ∧ (k - 128) % 64 < 4
    · rw [if_pos hmmu, if_pos (show k < 64 * (2 + nr_l2 + nr_sc) ∧ k % 64 < 4 by omega)]
      simp only [v5MaskOf]
      rw [if_neg (show ¬(k / 64 = 0) by omega), if_neg (show ¬(k / 64 = 1) by omega),
        if_pos (show k / 64 < 2 + nr_l2 by omega)]
      by_cases he : (k - 128) % 64 = 2
      · rw [if_pos he, if_pos (show k % 64 = 2 by omega)]
      · rw [if_neg he, if_neg (show ¬(k % 64 = 2) by omega)]
    · rw [if_neg hmmu]
      by_cases htl : 64 ≤ k ∧ k < 64 + 4
      · rw [if_pos htl, if_pos (show k < 64 * (2 + nr_l2 + nr_sc) ∧ k % 64 < 4 by omega)]
        simp only [v5MaskOf]
        rw [if_neg (show ¬(k / 64 = 0) by omega), if_pos (show k / 64 = 1 by omega)]
        by_cases he : k = 64 + 2
        · rw [if_pos he, if_pos (show k % 64 = 2 by omega)]
        · rw [if_neg he, if_neg (show ¬(k % 64 = 2) by omega)]
      · rw [if_neg htl]
        by_cases hjm : 0 ≤ k ∧ k < 0 + 4
        · rw [if_pos hjm, if_pos (show k < 64 * (2 + nr_l2 + nr_sc) ∧ k % 64 < 4 by omega)]
          simp only [v5MaskOf]
          rw [if_pos (show k / 64 = 0 by omega)]
          by_cases he : k = 0 + 2
          · rw [if_pos he, if_pos (show k % 64 = 2 by omega)]
          · rw [if_neg he, if_neg (show ¬(k % 64 = 2) by omega)]
        · rw [if_neg hjm,
            if_neg (show ¬(k < 64 * (2 + nr_l2 + nr_sc) ∧ k % 64 < 4) by omega)]

/-- C3: the per-counter accumulation step adds each 4-byte counter from the
shared dump buffer into the accumulation buffer, skipping the 16 header bytes
(the first 4 words) of every 256-byte (64-word) block, and saturates at
U32_MAX: for accumulated value a and dumped value b the stored result is
min(a + b, U32_MAX) in exact arithmetic, so it never wraps. -/
theorem accum_dump_buffer_saturates (dst src : Buffer) (dump_size k : Nat)
    (hk : k < 64 * ((dump_size + 255) / 256)) (hd : dst k ≤ U32_MAX) :
    accum_dump_buffer dst src dump_size k =
      if k % 64 < 4 then dst k else min (dst k + src k) U32_MAX := by
  unfold accum_dump_buffer
  rw [accumBlocks_char]
  by_cases h : k % 64 < 4
  · rw [if_neg (show ¬(0 ≤ k ∧ k < 0 + 64 * ((dump_size + 255) / 256) ∧
      4 ≤ (k - 0) % 64) by omega), if_pos h]
  · rw [if_pos (show 0 ≤ k ∧ k < 0 + 64 * ((dump_size + 255) / 256) ∧
      4 ≤ (k - 0) % 64 by omega), if_neg h, accumWord_eq_min _ _ hd]

theorem accum_dump_buffer_saturates_witness :
    accum_dump_buffer accumDstW accumSrcW 256 4 =
      if 4 % 64 < 4 then accumDstW 4 else min (accumDstW 4 + accumSrcW 4) U32_MAX :=
  accum_dump_buffer_saturates accumDstW accumSrcW 256 4 (by decide)
    (by decide)

theorem maskAnd_eq (d : Buffer) (i m k : Nat) (h : k = i) :
    maskAnd d i m k = d k &&& m := by
  subst h
  simp [maskAnd, wstore]

theorem maskAnd_ne (d : Buffer) (i m k : Nat) (h : ¬ k = i) :
    maskAnd d i m k = d k := by
  simp [maskAnd, wstore, h]

theorem applyHdrCopies_eval (src : Buffer) (g : Nat) :
    ∀ (offs : List Nat) (d : Buffer) (k : Nat),
      applyHdrCopies src g offs d k =
        if ∃ b ∈ offs, g + b ≤ k ∧ k < g + b + 4 then src k else d k := by
  intro offs
  induction offs with
  | nil =>
      intro d k
      simp [applyHdrCopies]
  | cons b offs ih =>
      intro d k
      simp only [applyHdrCopies]
      rw [ih]
      by_cases h1 : ∃ c ∈ offs, g + c ≤ k ∧ k < g + c + 4
      · rw [if_pos h1]
        obtain ⟨c, hc, hcc⟩ := h1
        rw [if_pos ⟨c, List.mem_cons_of_mem _ hc, hcc⟩]
      · rw [if_neg h1]
        simp only [memcpyWords, NR_BYTES_PER_HDR]
        by_cases h2 : g + b ≤ k ∧ k < g + b + 16 / 4
        · rw [if_pos h2, if_pos ⟨b, List.mem_cons_self b offs, by omega⟩]
        · rw [if_neg h2, if_neg (by
            rintro ⟨c, hc, hcc⟩
            rcases List.mem_cons.mp hc with rfl | hc2
            · omega
            · exact h1 ⟨c, hc2, hcc⟩)]

theorem patchGroupV4_char (bm : Bitmap4) (g : Nat) (d src : Buffer) (k : Nat) :
    patchGroupV4 bm g d src k =
      if g ≤ k ∧ k - g < 512 ∧ (k - g) % 64 < 4 ∧ (k - g) / 64 ≠ 6 then
        (if (k - g) % 64 = 2 then src k &&& v4MaskOf bm ((k - g) / 64) else src k)
      else d k := by
  simp only [patchGroupV4, v4MaskPatches, applyMaskAnds]
  by_cases hdr : g ≤ k ∧ k - g < 512 ∧ (k - g) % 64 < 4 ∧ (k - g) / 64 ≠ 6
  · by_cases hmask : (k - g) % 64 = 2
    · have hb : (k - g) / 64 = 0 ∨ (k - g) / 64 = 1 ∨ (k - g) / 64 = 2 ∨
          (k - g) / 64 = 3 ∨ (k - g) / 64 = 4 ∨ (k - g) / 64 = 5 ∨
          (k - g) / 64 = 7 := by omega
      rcases hb with hb | hb | hb | hb | hb | hb | hb
      · rw [maskAnd_ne _ _ _ _ (by omega), maskAnd_ne _ _ _ _ (by omega),
          maskAnd_ne _ _ _ _ (by omega), maskAnd_ne _ _ _ _ (by omega),
          maskAnd_ne _ _ _ _ (by omega), maskAnd_ne _ _ _ _ (by omega),
          maskAnd_eq _ _ _ _ (show k = g + 2 by omega), applyHdrCopies_eval,
          if_pos ⟨0, by decide, by omega⟩, if_pos hdr, if_pos hmask, hb]
        simp [v4MaskOf]
      · rw [maskAnd_ne _ _ _ _ (by omega), maskAnd_ne _ _ _ _ (by omega),
          maskAnd_ne _ _ _ _ (by omega), maskAnd_ne _ _ _ _ (by omega),
          maskAnd_ne _ _ _ _ (by omega),
          maskAnd_eq _ _ _ _ (show k = g + 66 by omega),
          maskAnd_ne _ _ _ _ (by omega), applyHdrCopies_eval,
          if_pos ⟨64, by decide, by omega⟩, if_pos hdr, if_pos hmask, hb]
        simp [v4MaskOf]
      · rw [maskAnd_ne _ _ _ _ (by omega), maskAnd_ne _ _ _ _ (by omega),
          maskAnd_ne _ _ _ _ (by omega), maskAnd_ne _ _ _ _ (by omega),
          maskAnd_eq _ _ _ _ (show k = g + 130 by omega),
          maskAnd_ne _ _ _ _ (by omega), maskAnd_ne _ _ _ _ (by omega),
          applyHdrCopies_eval,
          if_pos ⟨128, by decide, by omega⟩, if_pos hdr, if_pos hmask, hb]
        simp [v4MaskOf]
      · rw [maskAnd_ne _ _ _ _ (by omega), maskAnd_ne _ _ _ _ (by omega),
          maskAnd_ne _ _ _ _ (by omega),
          maskAnd_eq _ _ _ _ (show k = g + 194 by omega),
          maskAnd_ne _ _ _ _ (by omega), maskAnd_ne _ _ _ _ (by omega),
          maskAnd_ne _ _ _ _ (by omega), applyHdrCopies_eval,
          if_pos ⟨192, by decide, by omega⟩, if_pos hdr, if_pos hmask, hb]
        simp [v4MaskOf]
      · rw [maskAnd_ne _ _ _ _ (by omega), maskAnd_ne _ _ _ _ (by omega),
          maskAnd_eq _ _ _ _ (show k = g + 258 by omega),
          maskAnd_ne _ _ _ _ (by omega), maskAnd_ne _ _ _ _ (by omega),
          maskAnd_ne _ _ _ _ (by omega), maskAnd_ne _ _ _ _ (by omega),
          applyHdrCopies_eval,
          if_pos ⟨256, by decide, by omega⟩, if_pos hdr, if_pos hmask, hb]
        simp [v4MaskOf]
      · rw [maskAnd_ne _ _ _ _ (by omega),
          maskAnd_eq _ _ _ _ (show k = g + 322 by omega),
          maskAnd_ne _ _ _ _ (by omega), maskAnd_ne _ _ _ _ (by omega),
          maskAnd_ne _ _ _ _ (by omega), maskAnd_ne _ _ _ _ (by omega),
          maskAnd_ne _ _ _ _ (by omega), applyHdrCopies_eval,
          if_pos ⟨320, by decide, by omega⟩, if_pos hdr, if_pos hmask, hb]
        simp [v4MaskOf]
      · rw [maskAnd_eq _ _ _ _ (show k = g + 450 by omega),
          maskAnd_ne _ _ _ _ (by omega), maskAnd_ne _ _ _ _ (by omega),
          maskAnd_ne _ _ _ _ (by omega), maskAnd_ne _ _ _ _ (by omega),
          maskAnd_ne _ _ _ _ (by omega), maskAnd_ne _ _ _ _ (by omega),
          applyHdrCopies_eval,
          if_pos ⟨448, by decide, by omega⟩, if_pos hdr, if_pos hmask, hb]
        simp [v4MaskOf]
    · have hb : (k - g) / 64 = 0 ∨ (k - g) / 64 = 1 ∨ (k - g) / 64 = 2 ∨
          (k - g) / 64 = 3 ∨ (k - g) / 64 = 4 ∨ (k - g) / 64 = 5 ∨
          (k - g) / 64 = 7 := by omega
      rw [maskAnd_ne _ _ _ _ (by omega), maskAnd_ne _ _ _ _ (by omega),
        maskAnd_ne _ _ _ _ (by omega), maskAnd_ne _ _ _ _ (by omega),
        maskAnd_ne _ _ _ _ (by omega), maskAnd_ne _ _ _ _ (by omega),
        maskAnd_ne _ _ _ _ (by omega), applyHdrCopies_eval]
      rcases hb with hb | hb | hb | hb | hb | hb | hb
      · rw [if_pos ⟨0, by decide, by omega⟩, if_pos hdr, if_neg hmask]
      · rw [if_pos ⟨64, by decide, by omega⟩, if_pos hdr, if_neg hmask]
      · rw [if_pos ⟨128, by decide, by omega⟩, if_pos hdr, if_neg hmask]
      · rw [if_pos ⟨192, by decide, by omega⟩, if_pos hdr, if_neg hmask]
      · rw [if_pos ⟨256, by decide, by omega⟩, if_pos hdr, if_neg hmask]
      · rw [if_pos ⟨320, by decide, by omega⟩, if_pos hdr, if_neg hmask]
      · rw [if_pos ⟨448, by decide, by omega⟩, if_pos hdr, if_neg hmask]
  · rw [maskAnd_ne _ _ _ _ (by omega), maskAnd_ne _ _ _ _ (by omega),
      maskAnd_ne _ _ _ _ (by omega), maskAnd_ne _ _ _ _ (by omega),
      maskAnd_ne _ _ _ _ (by omega), maskAnd_ne _ _ _ _ (by omega),
      maskAnd_ne _ _ _ _ (by omega), applyHdrCopies_eval,
      if_neg (by
        rintro ⟨c, hc, hcc⟩
        have : c = 0 ∨ c = 64 ∨ c = 128 ∨ c = 192 ∨ c = 256 ∨ c = 320 ∨
            c = 448 := by
          simpa [v4HdrOffsets] using hc
        rcases this with rfl | rfl | rfl | rfl | rfl | rfl | rfl <;> omega),
      if_neg hdr]

theorem patchLoopV4_char (bm : Bitmap4) (src : Buffer) :
    ∀ (n : Nat) (d : Buffer) (k : Nat),
      patchLoopV4 bm src n d k =
        if k < 512 * n ∧ k % 64 < 4 ∧ k % 512 / 64 ≠ 6 then
          (if k % 64 = 2 then src k &&& v4MaskOf bm (k % 512 / 64) else src k)
        else d k := by
  intro n
  induction n with
  | zero =>
      intro d k
      simp only [patchLoopV4]
      rw [if_neg (by omega)]
  | succ n ih =>
      intro d k
      simp only [patchLoopV4]
      rw [patchGroupV4_char, ih]
      by_cases hG : 512 * n ≤ k ∧ k - 512 * n < 512 ∧ (k - 512 * n) % 64 < 4 ∧
          (k - 512 * n) / 64 ≠ 6
      · rw [if_pos hG,
          if_pos (show k < 512 * (n + 1) ∧ k % 64 < 4 ∧ k % 512 / 64 ≠ 6 by omega)]
        have hdiv : (k - 512 * n) / 64 = k % 512 / 64 := by omega
        by_cases he : (k - 512 * n) % 64 = 2
        · rw [if_pos he, if_pos (show k % 64 = 2 by omega), hdiv]
        · rw [if_neg he, if_neg (show ¬(k % 64 = 2) by omega)]
      · rw [if_neg hG]
        by_cases hI : k < 512 * n ∧ k % 64 < 4 ∧ k % 512 / 64 ≠ 6
        · rw [if_pos hI,
            if_pos (show k < 512 * (n + 1) ∧ k % 64 < 4 ∧ k % 512 / 64 ≠ 6 by omega)]
        · rw [if_neg hI,
            if_neg (show ¬(k < 512 * (n + 1) ∧ k % 64 < 4 ∧ k % 512 / 64 ≠ 6) by omega)]

theorem patch_v4_char (nr_cg : Nat) (bm : Bitmap4) (dst src : Buffer) (k : Nat) :
    patch_dump_buffer_hdr_v4 nr_cg bm dst src k =
      if k < 512 * nr_cg ∧ k % 64 < 4 ∧ k % 512 / 64 ≠ 6 then
        (if k % 64 = 2 then src k &&& v4MaskOf bm (k % 512 / 64) else src k)
      else dst k :=
  patchLoopV4_char bm src nr_cg dst k

theorem hwcnt_bitmap_union_zero_left (b : Bitmap4) :
    hwcnt_bitmap_union ⟨0, 0, 0, 0⟩ b = b := by
  cases b
  simp [hwcnt_bitmap_union]

theorem hwcnt_bitmap_union_zero_right (b : Bitmap4) :
    hwcnt_bitmap_union b ⟨0, 0, 0, 0⟩ = b := by
  cases b
  simp [hwcnt_bitmap_union]

theorem hwcnt_bitmap_union_comm (a b : Bitmap4) :
    hwcnt_bitmap_union a b = hwcnt_bitmap_union b a := by
  cases a
  cases b
  simp [hwcnt_bitmap_union, Nat.lor_comm]

theorem hwcnt_bitmap_union_assoc (a b c : Bitmap4) :
    hwcnt_bitmap_union (hwcnt_bitmap_union a b) c =
      hwcnt_bitmap_union a (hwcnt_bitmap_union b c) := by
  cases a
  cases b
  cases c
  simp [hwcnt_bitmap_union, Nat.lor_assoc]

theorem unionAllBitmaps_foldl (l : List (Nat × VinstrClient)) :
    ∀ a : Bitmap4,
      l.foldl (fun acc p => hwcnt_bitmap_union acc p.2.bitmap) a =
        hwcnt_bitmap_union a (unionAllBitmaps l) := by
  induction l with
  | nil =>
      intro a
      simp [unionAllBitmaps, hwcnt_bitmap_union_zero_right]
  | cons p l ih =>
      intro a
      simp only [unionAllBitmaps, List.foldl_cons] at *
      rw [ih, ih (hwcnt_bitmap_union ⟨0, 0, 0, 0⟩ p.2.bitmap),
        hwcnt_bitmap_union_zero_left, ← hwcnt_bitmap_union_assoc]

theorem unionAllBitmaps_cons (p : Nat × VinstrClient) (l : List (Nat × VinstrClient)) :
    unionAllBitmaps (p :: l) =
      hwcnt_bitmap_union p.2.bitmap (unionAllBitmaps l) := by
  simp only [unionAllBitmaps, List.foldl_cons]
  rw [unionAllBitmaps_foldl, hwcnt_bitmap_union_zero_left]
  rfl

/-- C1 (amended): after every detach, and after every attach that succeeds,
the context's 4-category superset mask equals the category-wise bitwise union
of the masks of all currently attached clients.  (A failed attach can leave
bits contributed solely by the failed client in the mask, see the
counterexample.) -/
theorem superset_mask_union_invariant (ctx : VinstrContext) (kernel : Bool)
    (db : Nat) (bm : Bitmap4) (o1 o2 o3 : Bool) (id : Nat)
    (hlen : ctx.nclients = ctx.clients.length) (hinv : maskInv ctx) :
    ((kbase_vinstr_attach_client ctx kernel db bm o1 o2 o3).handle.isSome = true →
      maskInv (kbase_vinstr_attach_client ctx kernel db bm o1 o2 o3).ctx) ∧
    maskInv (kbase_vinstr_detach_client ctx id) := by
  constructor
  · intro hsome
    unfold kbase_vinstr_attach_client at hsome ⊢
    by_cases h1 : o1 = false
    · rw [if_pos h1] at hsome
      simp at hsome
    · rw [if_neg h1] at hsome ⊢
      simp only at hsome ⊢
      by_cases hn : ctx.nclients = 0
      · rw [if_pos hn] at hsome ⊢
        have hnil : ctx.clients = [] := by
          rw [hn] at hlen
          exact (List.length_eq_zero.mp hlen.symm)
        by_cases h2 : o2 = false
        · rw [if_pos h2] at hsome
          simp at hsome
        · rw [if_neg h2] at hsome ⊢
          unfold attach_finish at hsome ⊢
          by_cases h3 : o3 = false
          · rw [if_pos h3] at hsome
            simp at hsome
          · rw [if_neg h3] at hsome ⊢
            unfold maskInv
            simp only [create_vinstr_kctx, hwcnt_bitmap_set, hnil]
            rw [unionAllBitmaps_cons]
            simp [unionAllBitmaps, hwcnt_bitmap_union_zero_right]
      · rw [if_neg hn] at hsome ⊢
        unfold attach_finish at hsome ⊢
        by_cases h3 : o3 = false
        · rw [if_pos h3] at hsome
          simp at hsome
        · rw [if_neg h3] at hsome ⊢
          unfold maskInv
          rw [unionAllBitmaps_cons]
          simp only [maskInv] at hinv
          rw [← hinv, hwcnt_bitmap_union_comm]
  · rfl

theorem superset_mask_union_invariant_witness :
    maskInv (kbase_vinstr_attach_client ctxW0 false 0 ⟨1, 0, 0, 0⟩ true true true).ctx ∧
    maskInv (kbase_vinstr_detach_client ctxW0 5) := by
  have h := superset_mask_union_invariant ctxW0 false 0 ⟨1, 0, 0, 0⟩ true true true 5
    (by decide) (by unfold maskInv; decide)
  exact ⟨h.1 (by decide), h.2⟩

/-- C1 counterexample: a failed second attach (accumulation buffer allocation
fails) leaves the context mask with the failed client's bit still united in:
the mask no longer equals the union of the attached clients' masks. -/
theorem superset_mask_union_invariant_cex :
    attachWF.handle = none ∧ ¬ maskInv attachWF.ctx := by
  constructor
  · rfl
  · unfold maskInv
    decide

/-- C2 (amended): a failed attach leaves the client set, client count and
hardware-context existence exactly as before the call, but it is not strong
exception safety: the superset mask and the reprogram-needed flag can be left
modified (see the counterexample). -/
theorem attach_failure_rollback (ctx : VinstrContext) (kernel : Bool)
    (db : Nat) (bm : Bitmap4) (o1 o2 o3 : Bool)
    (hk : ctx.nclients = 0 → ctx.kctx = false)
    (hfail : (kbase_vinstr_attach_client ctx kernel db bm o1 o2 o3).handle = none) :
    (kbase_vinstr_attach_client ctx kernel db bm o1 o2 o3).ctx.clients = ctx.clients ∧
    (kbase_vinstr_attach_client ctx kernel db bm o1 o2 o3).ctx.nclients = ctx.nclients ∧
    (kbase_vinstr_attach_client ctx kernel db bm o1 o2 o3).ctx.kctx = ctx.kctx := by
  unfold kbase_vinstr_attach_client at hfail ⊢
  by_cases h1 : o1 = false
  · rw [if_pos h1]
    exact ⟨rfl, rfl, rfl⟩
  · rw [if_neg h1] at hfail ⊢
    simp only at hfail ⊢
    by_cases hn : ctx.nclients = 0
    · rw [if_pos hn] at hfail ⊢
      by_cases h2 : o2 = false
      · rw [if_pos h2]
        exact ⟨rfl, rfl, rfl⟩
      · rw [if_neg h2] at hfail ⊢
        unfold attach_finish at hfail ⊢
        by_cases h3 : o3 = false
        · rw [if_pos h3] at hfail ⊢
          simp only [create_vinstr_kctx, destroy_vinstr_kctx]
          rw [if_pos hn]
          exact ⟨rfl, rfl, (hk hn).symm⟩
        · rw [if_neg h3] at hfail
          simp at hfail
    · rw [if_neg hn] at hfail ⊢
      unfold attach_finish at hfail ⊢
      by_cases h3 : o3 = false
      · rw [if_pos h3]
        rw [if_neg hn]
        exact ⟨rfl, rfl, rfl⟩
      · rw [if_neg h3] at hfail
        simp at hfail

theorem attach_failure_rollback_witness :
    (kbase_vinstr_attach_client ctxW1 false 0 ⟨2, 0, 0, 0⟩ true true false).ctx.clients = ctxW1.clients ∧
    (kbase_vinstr_attach_client ctxW1 false 0 ⟨2, 0, 0, 0⟩ true true false).ctx.nclients = ctxW1.nclients ∧
    (kbase_vinstr_attach_client ctxW1 false 0 ⟨2, 0, 0, 0⟩ true true false).ctx.kctx = ctxW1.kctx :=
  attach_failure_rollback ctxW1 false 0 ⟨2, 0, 0, 0⟩ true true false
    (by decide) (by decide)

/-- C2 counterexample: the failed attach does change observable context
state, so the operation is not strongly exception safe as claimed: the
superset mask has the failed client's bit and the reprogram flag was raised. -/
theorem attach_failure_rollback_cex :
    attachWF.handle = none ∧
    ¬(attachWF.ctx.bitmap = ctxW1.bitmap ∧ attachWF.ctx.reprogram = ctxW1.reprogram) :=
  ⟨rfl, by decide⟩

/-- C8: kbase_vinstr_dump_size returns, for the legacy V4 layout,
core_groups * 8 blocks * 64 counters * 4 bytes, and for the v5 layout
(2 + num_l2_slices + num_cores) blocks of 64 counters * 4 = 256 bytes,
reading the topology counts from the device on every call. -/
theorem kbase_vinstr_dump_size_formula (kbdev : Device) :
    kbase_vinstr_dump_size kbdev =
      if kbdev.hasV4 = true then kbdev.num_core_groups * 8 * 64 * 4
      else (2 + kbdev.num_l2_slices + kbdev.num_cores) * 256 := by
  unfold kbase_vinstr_dump_size NR_CNT_BLOCKS_PER_GROUP NR_CNT_PER_BLOCK NR_BYTES_PER_CNT
  split
  · rfl
  · omega

theorem removeFirst_not_found (id : Nat) :
    ∀ l : List (Nat × VinstrClient),
      (removeFirst id l).1 = false → (removeFirst id l).2 = l := by
  intro l
  induction l with
  | nil => intro _; rfl
  | cons p rest ih =>
      simp only [removeFirst]
      by_cases hp : p.1 = id
      · rw [if_pos hp]
        intro hc
        simp at hc
      · rw [if_neg hp]
        intro hc
        simp only at hc ⊢
        rw [ih hc]

theorem removeFirst_found_length (id : Nat) :
    ∀ l : List (Nat × VinstrClient),
      (removeFirst id l).1 = true → l.length = (removeFirst id l).2.length + 1 := by
  intro l
  induction l with
  | nil => intro hc; simp [removeFirst] at hc
  | cons p rest ih =>
      simp only [removeFirst]
      by_cases hp : p.1 = id
      · rw [if_pos hp]
        intro _
        simp
      · rw [if_neg hp]
        intro hf
        simp only at hf ⊢
        simp [ih hf]

theorem lifecycleInv_kctx_false (ctx : VinstrContext) (h : lifecycleInv ctx)
    (hn : ctx.nclients = 0) : ctx.kctx = false := by
  rcases h with ⟨-, hiff, -⟩
  cases hck : ctx.kctx
  · rfl
  · have := hiff.mp hck
    omega

/-- C7: the hardware-backed context exists iff the client set is non-empty;
a successful attach into an empty registry performs exactly one context
creation, a detach that empties the registry exactly one destruction, and
the creation count always equals the destruction count plus one exactly when
the context exists (so creations minus destructions is always 0 or 1). -/
theorem hw_context_lifecycle (ctx : VinstrContext) (kernel : Bool) (db : Nat)
    (bm : Bitmap4) (o1 o2 o3 : Bool) (id : Nat) (h : lifecycleInv ctx) :
    lifecycleInv (kbase_vinstr_attach_client ctx kernel db bm o1 o2 o3).ctx ∧
    lifecycleInv (kbase_vinstr_detach_client ctx id) ∧
    ((kbase_vinstr_attach_client ctx kernel db bm o1 o2 o3).handle.isSome = true →
      ctx.nclients = 0 →
      (kbase_vinstr_attach_client ctx kernel db bm o1 o2 o3).ctx.created = ctx.created + 1 ∧
      (kbase_vinstr_attach_client ctx kernel db bm o1 o2 o3).ctx.kctx = true) ∧
    ((removeFirst id ctx.clients).1 = true → ctx.nclients = 1 →
      (kbase_vinstr_detach_client ctx id).destroyed = ctx.destroyed + 1 ∧
      (kbase_vinstr_detach_client ctx id).kctx = false) := by
  refine ⟨?_, ?_, ?_, ?_⟩
  · unfold kbase_vinstr_attach_client attach_finish
    by_cases h1 : o1 = false
    · rw [if_pos h1]
      exact h
    · rw [if_neg h1]
      simp only
      by_cases hn : ctx.nclients = 0
      · rw [if_pos hn]
        by_cases h2 : o2 = false
        · rw [if_pos h2]
          exact h
        · rw [if_neg h2]
          simp only [create_vinstr_kctx, destroy_vinstr_kctx]
          have hkf := lifecycleInv_kctx_false ctx h hn
          rcases h with ⟨hl, hiff, hc⟩
          rw [hkf] at hc
          simp only [Bool.false_eq_true, if_false] at hc
          by_cases h3 : o3 = false
          · rw [if_pos h3, if_pos hn]
            refine ⟨hl, ?_, ?_⟩
            · simp [hn]
            · simp
              omega
          · rw [if_neg h3]
            refine ⟨?_, ?_, ?_⟩
            · simp [hn, ← hl]
            · simp
            · simp
              omega
      · rw [if_neg hn]
        have hkt : ctx.kctx = true := h.2.1.mpr (by omega)
        rcases h with ⟨hl, hiff, hc⟩
        rw [hkt] at hc
        simp only [if_true] at hc
        by_cases h3 : o3 = false
        · rw [if_pos h3, if_neg hn]
          refine ⟨hl, hiff, ?_⟩
          rw [hkt]
          simp
          omega
        · rw [if_neg h3]
          refine ⟨?_, ?_, ?_⟩
          · simp [← hl]
          · simp [hkt]
          · simp [hkt]
            omega
  · simp only [kbase_vinstr_detach_client]
    by_cases hf : (removeFirst id ctx.clients).1 = true
    · rw [if_pos hf]
      have hlen2 := removeFirst_found_length id ctx.clients hf
      rcases h with ⟨hl, hiff, hc⟩
      have hpos : 0 < ctx.nclients := by omega
      have hkt : ctx.kctx = true := hiff.mpr hpos
      rw [hkt] at hc
      simp only [if_true] at hc
      by_cases h0 : ctx.nclients - 1 = 0
      · rw [if_pos h0]
        simp only [destroy_vinstr_kctx, lifecycleInv]
        refine ⟨?_, ?_, ?_⟩
        · omega
        · simp [h0]
        · simp
          omega
      · rw [if_neg h0]
        simp only [lifecycleInv]
        refine ⟨?_, ?_, ?_⟩
        · omega
        · simp [hkt]
          omega
        · simp [hkt]
          omega
    · rw [if_neg hf]
      exact h
  · intro hsome hn
    unfold kbase_vinstr_attach_client attach_finish at hsome ⊢
    by_cases h1 : o1 = false
    · rw [if_pos h1] at hsome
      simp at hsome
    · rw [if_neg h1] at hsome ⊢
      simp only at hsome ⊢
      rw [if_pos hn] at hsome ⊢
      by_cases h2 : o2 = false
      · rw [if_pos h2] at hsome
        simp at hsome
      · rw [if_neg h2] at hsome ⊢
        by_cases h3 : o3 = false
        · rw [if_pos h3] at hsome
          simp at hsome
        · rw [if_neg h3] at hsome ⊢
          simp [create_vinstr_kctx]
  · intro hf hone
    simp only [kbase_vinstr_detach_client]
    rw [if_pos hf, if_pos (show ctx.nclients - 1 = 0 by omega)]
    exact ⟨rfl, rfl⟩

theorem hw_context_lifecycle_witness :
    lifecycleInv (kbase_vinstr_attach_client ctxW1 false 0 ⟨2, 0, 0, 0⟩ true true true).ctx ∧
    (kbase_vinstr_detach_client ctxW1 0).destroyed = ctxW1.destroyed + 1 ∧
    (kbase_vinstr_detach_client ctxW1 0).kctx = false := by
  have h := hw_context_lifecycle ctxW1 false 0 ⟨2, 0, 0, 0⟩ true true true 0
    (by unfold lifecycleInv; decide)
  exact ⟨h.1, h.2.2.2 (by decide) (by decide)⟩

theorem lookupClient_map (id : Nat) (f : VinstrClient → VinstrClient) :
    ∀ l : List (Nat × VinstrClient),
      lookupClient id (l.map (fun p => (p.1, f p.2))) =
        (lookupClient id l).map f := by
  intro l
  induction l with
  | nil => rfl
  | cons p rest ih =>
      simp only [List.map_cons, lookupClient]
      by_cases hp : p.1 = id
      · rw [if_pos hp, if_pos hp]
        rfl
      · rw [if_neg hp, if_neg hp]
        exact ih

theorem lookupClient_update (id : Nat) (f : VinstrClient → VinstrClient) :
    ∀ l : List (Nat × VinstrClient),
      lookupClient id (updateClient id f l) = (lookupClient id l).map f := by
  intro l
  induction l with
  | nil => rfl
  | cons p rest ih =>
      simp only [updateClient, lookupClient]
      by_cases hp : p.1 = id
      · rw [if_pos hp]
        simp only [lookupClient]
        rw [if_pos hp, if_pos hp]
        rfl
      · rw [if_neg hp]
        simp only [lookupClient]
        rw [if_neg hp, if_neg hp]
        exact ih

theorem accum_client_step_pending (kbdev : Device) (cpu_va : Buffer) (c : VinstrClient) :
    (accum_client_step kbdev cpu_va c).pending = c.pending := by
  unfold accum_client_step
  split
  · rfl
  · rfl

theorem accum_client_step_kernel (kbdev : Device) (cpu_va : Buffer) (c : VinstrClient) :
    (accum_client_step kbdev cpu_va c).kernel = c.kernel := by
  unfold accum_client_step
  split
  · rfl
  · rfl

theorem accum_client_step_of_pending (kbdev : Device) (cpu_va : Buffer)
    (c : VinstrClient) (hp : c.pending = true) :
    accum_client_step kbdev cpu_va c = c := by
  unfold accum_client_step
  rw [if_pos hp]

theorem pendingMap_map (f : VinstrClient → VinstrClient)
    (hf : ∀ c, (f c).pending = c.pending) :
    ∀ l : List (Nat × VinstrClient),
      pendingMap (l.map (fun p => (p.1, f p.2))) = pendingMap l := by
  intro l
  induction l with
  | nil => rfl
  | cons p rest ih =>
      simp only [List.map_cons, pendingMap] at ih ⊢
      rw [hf]
      exact congrArg _ ih

theorem pendingMap_update (id : Nat) (f : VinstrClient → VinstrClient)
    (hf : ∀ c, (f c).pending = c.pending) :
    ∀ l : List (Nat × VinstrClient),
      pendingMap (updateClient id f l) = pendingMap l := by
  intro l
  induction l with
  | nil => rfl
  | cons p rest ih =>
      simp only [updateClient]
      by_cases hp : p.1 = id
      · rw [if_pos hp]
        simp only [pendingMap, List.map_cons]
        rw [hf]
      · rw [if_neg hp]
        simp only [pendingMap, List.map_cons] at ih ⊢
        exact congrArg _ ih

theorem dumpAccumCtx_lookup (ctx : VinstrContext) (id : Nat) (c : VinstrClient)
    (hw : Buffer) (h1 : lookupClient id ctx.clients = some c) :
    lookupClient id (dumpAccumCtx ctx hw).clients =
      some (accum_client_step ctx.kbdev hw c) := by
  simp only [dumpAccumCtx, accum_clients]
  rw [lookupClient_map, h1]
  rfl

theorem kbase_vinstr_dump_eval_fault (ctx : VinstrContext) (id : Nat)
    (c : VinstrClient) (hw : Buffer) (rpErr : Int)
    (h1 : lookupClient id ctx.clients = some c) (hker : c.kernel = false) :
    kbase_vinstr_dump ctx (some id) hw 0 0 false rpErr =
      ⟨EFAULT, dumpAccumCtx ctx hw, none⟩ := by
  have hlook := dumpAccumCtx_lookup ctx id c hw h1
  simp only [dumpAccumCtx] at hlook
  simp only [kbase_vinstr_dump]
  rw [if_neg (show ¬((0 : Int) ≠ 0) by norm_num),
    if_neg (show ¬((0 : Int) ≠ 0) by norm_num)]
  simp only [hlook]
  rw [if_pos ⟨by rw [accum_client_step_kernel]; exact hker, trivial⟩]
  rfl

theorem kbase_vinstr_dump_eval_copied (ctx : VinstrContext) (id : Nat)
    (c : VinstrClient) (hw : Buffer) (okCopy : Bool) (rpErr : Int)
    (h1 : lookupClient id ctx.clients = some c)
    (hok : c.kernel = false → okCopy = true) :
    kbase_vinstr_dump ctx (some id) hw 0 0 okCopy rpErr =
      if ctx.reprogram = true then
        (if rpErr ≠ 0 then
          ⟨rpErr, zeroTargetCtx ctx id hw,
            some (accum_client_step ctx.kbdev hw c).accum_buffer⟩
        else
          ⟨0, clearPendingCtx (zeroTargetCtx ctx id hw),
            some (accum_client_step ctx.kbdev hw c).accum_buffer⟩)
      else
        ⟨0, zeroTargetCtx ctx id hw,
          some (accum_client_step ctx.kbdev hw c).accum_buffer⟩ := by
  have hlook := dumpAccumCtx_lookup ctx id c hw h1
  simp only [dumpAccumCtx] at hlook
  simp only [kbase_vinstr_dump]
  rw [if_neg (show ¬((0 : Int) ≠ 0) by norm_num),
    if_neg (show ¬((0 : Int) ≠ 0) by norm_num)]
  simp only [hlook]
  rw [if_neg (show ¬((accum_client_step ctx.kbdev hw c).kernel = false ∧ okCopy = false) by
    rintro ⟨hk1, hk2⟩
    rw [accum_client_step_kernel] at hk1
    rw [hok hk1] at hk2
    simp at hk2)]
  rfl

theorem kbase_vinstr_clear_eval (ctx : VinstrContext) (id : Nat) (hw : Buffer)
    (rpErr : Int) :
    kbase_vinstr_clear ctx (some id) hw 0 0 0 rpErr =
      if ctx.reprogram = true then
        (if rpErr ≠ 0 then (rpErr, zeroTargetCtx ctx id hw)
         else (0, clearPendingCtx (zeroTargetCtx ctx id hw)))
      else (0, zeroTargetCtx ctx id hw) := by
  simp only [kbase_vinstr_clear]
  rw [if_neg (show ¬((0 : Int) ≠ 0) by norm_num),
    if_neg (show ¬((0 : Int) ≠ 0) by norm_num),
    if_neg (show ¬((0 : Int) ≠ 0) by norm_num)]
  rfl

theorem pendingMap_dumpAccumCtx (ctx : VinstrContext) (hw : Buffer) :
    pendingMap (dumpAccumCtx ctx hw).clients = pendingMap ctx.clients := by
  simp only [dumpAccumCtx, accum_clients]
  exact pendingMap_map _ (accum_client_step_pending ctx.kbdev hw) ctx.clients

theorem pendingMap_zeroTargetCtx (ctx : VinstrContext) (id : Nat) (hw : Buffer) :
    pendingMap (zeroTargetCtx ctx id hw).clients = pendingMap ctx.clients := by
  simp only [zeroTargetCtx]
  rw [pendingMap_update id (fun c2 => { c2 with accum_buffer := fun _ => 0 })
    (fun c2 => rfl)]
  exact pendingMap_dumpAccumCtx ctx hw

theorem zeroTargetCtx_lookup (ctx : VinstrContext) (id : Nat) (c : VinstrClient)
    (hw : Buffer) (h1 : lookupClient id ctx.clients = some c) :
    lookupClient id (zeroTargetCtx ctx id hw).clients =
      some { accum_client_step ctx.kbdev hw c with accum_buffer := fun _ => 0 } := by
  simp only [zeroTargetCtx]
  rw [lookupClient_update, dumpAccumCtx_lookup ctx id c hw h1]
  rfl

theorem clearPendingCtx_lookup (X : VinstrContext) (id : Nat) (c : VinstrClient)
    (h : lookupClient id X.clients = some c) :
    lookupClient id (clearPendingCtx X).clients = some { c with pending := false } := by
  simp only [clearPendingCtx]
  rw [lookupClient_map id (fun c2 => { c2 with pending := false }) X.clients, h]
  rfl

/-- C5: a pending client is skipped by the accumulation pass (its
accumulation buffer is left untouched), a dump it requests while its
zero-initialized buffer is still all zero delivers all-zero data, the
reprogram step runs only when the reprogram-needed flag is set (a dump or
clear with the flag clear leaves every pending flag unchanged), and a
successful reprogram at step 5 of a dump or clear clears the flag and the
pending flag of every attached client. -/
theorem pending_client_zero_until_reprogram
    (ctx : VinstrContext) (id : Nat) (c : VinstrClient) (hw : Buffer)
    (okCopy : Bool) (rpErr : Int)
    (h1 : lookupClient id ctx.clients = some c)
    (h2 : c.pending = true)
    (h3 : ∀ k, c.accum_buffer k = 0) :
    (∀ (kbdev : Device) (buf : Buffer) (c2 : VinstrClient),
      c2.pending = true → accum_client_step kbdev buf c2 = c2) ∧
    (∀ dv, (kbase_vinstr_dump ctx (some id) hw 0 0 okCopy rpErr).delivered = some dv →
      ∀ k, dv k = 0) ∧
    (ctx.reprogram = false →
      pendingMap (kbase_vinstr_dump ctx (some id) hw 0 0 okCopy rpErr).ctx.clients =
        pendingMap ctx.clients ∧
      (kbase_vinstr_dump ctx (some id) hw 0 0 okCopy rpErr).ctx.reprogram = false) ∧
    (ctx.reprogram = true → okCopy = true → rpErr = 0 →
      (kbase_vinstr_dump ctx (some id) hw 0 0 okCopy rpErr).ctx.reprogram = false ∧
      ∀ p ∈ (kbase_vinstr_dump ctx (some id) hw 0 0 okCopy rpErr).ctx.clients,
        p.2.pending = false) ∧
    (ctx.reprogram = false →
      pendingMap (kbase_vinstr_clear ctx (some id) hw 0 0 0 rpErr).2.clients =
        pendingMap ctx.clients) ∧
    (ctx.reprogram = true → rpErr = 0 →
      ∀ p ∈ (kbase_vinstr_clear ctx (some id) hw 0 0 0 rpErr).2.clients,
        p.2.pending = false) := by
  have hstep : accum_client_step ctx.kbdev hw c = c :=
    accum_client_step_of_pending ctx.kbdev hw c h2
  refine ⟨?_, ?_, ?_, ?_, ?_, ?_⟩
  · intro kbdev buf c2 hp
    exact accum_client_step_of_pending kbdev buf c2 hp
  · by_cases hcf : c.kernel = false ∧ okCopy = false
    · rw [hcf.2, kbase_vinstr_dump_eval_fault ctx id c hw rpErr h1 hcf.1]
      intro dv hdv
      simp at hdv
    · have hok : c.kernel = false → okCopy = true := by
        intro hk
        cases hoc : okCopy
        · exact absurd ⟨hk, hoc⟩ hcf
        · rfl
      rw [kbase_vinstr_dump_eval_copied ctx id c hw okCopy rpErr h1 hok, hstep]
      intro dv hdv k
      split at hdv
      · split at hdv
        · simp at hdv
          rw [← hdv]
          exact h3 k
        · simp at hdv
          rw [← hdv]
          exact h3 k
      · simp at hdv
        rw [← hdv]
        exact h3 k
  · intro hR
    by_cases hcf : c.kernel = false ∧ okCopy = false
    · rw [hcf.2, kbase_vinstr_dump_eval_fault ctx id c hw rpErr h1 hcf.1]
      exact ⟨pendingMap_dumpAccumCtx ctx hw, hR⟩
    · have hok : c.kernel = false → okCopy = true := by
        intro hk
        cases hoc : okCopy
        · exact absurd ⟨hk, hoc⟩ hcf
        · rfl
      rw [kbase_vinstr_dump_eval_copied ctx id c hw okCopy rpErr h1 hok,
        if_neg (show ¬(ctx.reprogram = true) by rw [hR]; simp)]
      exact ⟨pendingMap_zeroTargetCtx ctx id hw, hR⟩
  · intro hR hoc hrp
    rw [hoc] at *
    rw [kbase_vinstr_dump_eval_copied ctx id c hw true rpErr h1 (fun _ => rfl),
      if_pos hR, if_neg (show ¬(rpErr ≠ 0) by rw [hrp]; norm_num)]
    constructor
    · rfl
    · intro p hp
      simp only [clearPendingCtx, List.mem_map] at hp
      obtain ⟨q, -, rfl⟩ := hp
      rfl
  · intro hR
    rw [kbase_vinstr_clear_eval ctx id hw rpErr,
      if_neg (show ¬(ctx.reprogram = true) by rw [hR]; simp)]
    exact pendingMap_zeroTargetCtx ctx id hw
  · intro hR hrp
    rw [kbase_vinstr_clear_eval ctx id hw rpErr, if_pos hR,
      if_neg (show ¬(rpErr ≠ 0) by rw [hrp]; norm_num)]
    intro p hp
    simp only [clearPendingCtx, List.mem_map] at hp
    obtain ⟨q, -, rfl⟩ := hp
    rfl

theorem pending_client_zero_until_reprogram_witness :
    accum_client_step devW hwW cliW1 = cliW1 ∧
    (kbase_vinstr_dump ctxW2 (some 1) hwW 0 0 true 0).ctx.reprogram = false := by
  have h := pending_client_zero_until_reprogram ctxW2 1 cliW1 hwW true 0
    (by rfl) (by rfl) (fun k => rfl)
  exact ⟨h.1 devW hwW cliW1 (by rfl), (h.2.2.2.1 (by rfl) rfl rfl).1⟩

/-- C6: when the destination copy of a dump fails, the call returns
CopyFault (EFAULT) and aborts before the target client's accumulation buffer
is zeroed — the buffer still holds the freshly accumulated data and nothing
was delivered; only when the destination copy succeeds is the buffer
zeroed. -/
theorem dump_copyfault_keeps_accum (ctx : VinstrContext) (id : Nat)
    (c : VinstrClient) (hw : Buffer) (rpErr : Int)
    (h1 : lookupClient id ctx.clients = some c) (hker : c.kernel = false) :
    ((kbase_vinstr_dump ctx (some id) hw 0 0 false rpErr).err = EFAULT ∧
     (kbase_vinstr_dump ctx (some id) hw 0 0 false rpErr).delivered = none ∧
     lookupClient id (kbase_vinstr_dump ctx (some id) hw 0 0 false rpErr).ctx.clients =
       some (accum_client_step ctx.kbdev hw c)) ∧
    (∀ k, accumOf (lookupClient id
        (kbase_vinstr_dump ctx (some id) hw 0 0 true rpErr).ctx.clients) k = 0) := by
  constructor
  · rw [kbase_vinstr_dump_eval_fault ctx id c hw rpErr h1 hker]
    exact ⟨rfl, rfl, dumpAccumCtx_lookup ctx id c hw h1⟩
  · rw [kbase_vinstr_dump_eval_copied ctx id c hw true rpErr h1 (fun _ => rfl)]
    intro k
    split
    · split
      · rw [zeroTargetCtx_lookup ctx id c hw h1]
        rfl
      · rw [clearPendingCtx_lookup _ id _ (zeroTargetCtx_lookup ctx id c hw h1)]
        rfl
    · rw [zeroTargetCtx_lookup ctx id c hw h1]
      rfl

theorem dump_copyfault_keeps_accum_witness :
    (kbase_vinstr_dump ctxW2 (some 0) hwW 0 0 false 0).err = EFAULT ∧
    accumOf (lookupClient 0
      (kbase_vinstr_dump ctxW2 (some 0) hwW 0 0 true 0).ctx.clients) 5 = 0 := by
  have h := dump_copyfault_keeps_accum ctxW2 0 cliW0 hwW 0 (by rfl) (by rfl)
  exact ⟨h.1.1, h.2 5⟩

/-- C10: a dump that fails with CopyFault does not execute the reprogram
step: the reprogram-needed flag and every client's pending flag are exactly
as before the call, even though the dump has already been accumulated into
the accumulation buffer of every client (pending ones skipped), including
clients other than the caller. -/
theorem dump_copyfault_frame (ctx : VinstrContext) (id : Nat) (c : VinstrClient)
    (hw : Buffer) (rpErr : Int)
    (h1 : lookupClient id ctx.clients = some c) (hker : c.kernel = false) :
    (kbase_vinstr_dump ctx (some id) hw 0 0 false rpErr).err = EFAULT ∧
    (kbase_vinstr_dump ctx (some id) hw 0 0 false rpErr).ctx.reprogram = ctx.reprogram ∧
    pendingMap (kbase_vinstr_dump ctx (some id) hw 0 0 false rpErr).ctx.clients =
      pendingMap ctx.clients ∧
    (kbase_vinstr_dump ctx (some id) hw 0 0 false rpErr).ctx.clients =
      ctx.clients.map (fun p => (p.1, accum_client_step ctx.kbdev hw p.2)) := by
  rw [kbase_vinstr_dump_eval_fault ctx id c hw rpErr h1 hker]
  exact ⟨rfl, rfl, pendingMap_dumpAccumCtx ctx hw, rfl⟩

theorem dump_copyfault_frame_witness :
    (kbase_vinstr_dump ctxW2 (some 0) hwW 0 0 false 0).err = EFAULT ∧
    (kbase_vinstr_dump ctxW2 (some 0) hwW 0 0 false 0).ctx.reprogram = ctxW2.reprogram :=
  ⟨(dump_copyfault_frame ctxW2 0 cliW0 hwW 0 (by rfl) (by rfl)).1,
   (dump_copyfault_frame ctxW2 0 cliW0 hwW 0 (by rfl) (by rfl)).2.1⟩

/-- C4 (amended): for every block of the v5 layout, and for every
non-reserved block of the v4 layout, the header-patching step copies the
16-byte block header from the shared dump buffer into the client's
accumulation buffer at the same offset and replaces the 32-bit enable-mask
word (header offset 8) by the bitwise AND of the hardware-written mask and
the client's requested mask for the block's category; the v4 layout's
reserved block (group-relative index 6) is neither copied nor patched.  The
accumulation step never touches header words, so a client whose requested
mask for a category is zero never observes a nonzero enable mask in any
block of that category. -/
theorem patch_hdr_masks (nr_l2 nr_sc nr_cg : Nat) (bm : Bitmap4)
    (dst src : Buffer) (k : Nat) :
    (patch_dump_buffer_hdr_v5 nr_l2 nr_sc bm dst src k =
      if k < 64 * (2 + nr_l2 + nr_sc) ∧ k % 64 < 4 then
        (if k % 64 = 2 then src k &&& v5MaskOf bm nr_l2 (k / 64) else src k)
      else dst k) ∧
    (patch_dump_buffer_hdr_v4 nr_cg bm dst src k =
      if k < 512 * nr_cg ∧ k % 64 < 4 ∧ k % 512 / 64 ≠ 6 then
        (if k % 64 = 2 then src k &&& v4MaskOf bm (k % 512 / 64) else src k)
      else dst k) ∧
    (∀ ds, k % 64 < 4 → accum_dump_buffer dst src ds k = dst k) ∧
    (∀ b, b < 2 + nr_l2 + nr_sc → v5MaskOf bm nr_l2 b = 0 →
      patch_dump_buffer_hdr_v5 nr_l2 nr_sc bm dst src (64 * b + 2) = 0) ∧
    (∀ g b, g < nr_cg → b < 8 → b ≠ 6 → v4MaskOf bm b = 0 →
      patch_dump_buffer_hdr_v4 nr_cg bm dst src (512 * g + 64 * b + 2) = 0) := by
  refine ⟨patch_v5_char nr_l2 nr_sc bm dst src k,
    patch_v4_char nr_cg bm dst src k, ?_, ?_, ?_⟩
  · intro ds hk
    unfold accum_dump_buffer
    rw [accumBlocks_char, if_neg (by omega)]
  · intro b hb hmz
    rw [patch_v5_char, if_pos (by constructor <;> omega),
      if_pos (show (64 * b + 2) % 64 = 2 by omega),
      show (64 * b + 2) / 64 = b by omega, hmz]
    simp
  · intro g b hg hb hb6 hmz
    rw [patch_v4_char, if_pos (by refine ⟨by omega, by omega, by omega⟩),
      if_pos (show (512 * g + 64 * b + 2) % 64 = 2 by omega),
      show (512 * g + 64 * b + 2) % 512 / 64 = b by omega, hmz]
    simp

theorem patch_hdr_masks_witness :
    patch_dump_buffer_hdr_v5 1 1 bmNoJm patchDstW patchSrcW 2 = 0 :=
  (patch_hdr_masks 1 1 1 bmNoJm patchDstW patchSrcW 0).2.2.2.1 0
    (by decide) (by decide)

/-- C4 counterexample: the claim says the header of every block of the
active layout is copied from the shared buffer, but on the legacy v4 layout
the reserved block (group-relative index 6, word offset 384) is skipped: the
patched buffer still holds the accumulation buffer's value there, not the
shared buffer's. -/
theorem patch_hdr_masks_cex :
    patch_dump_buffer_hdr_v4 1 bmW patchDstW patchSrcW 384 = 0 ∧
    patchSrcW 384 = 1 ∧
    patch_dump_buffer_hdr_v4 1 bmW patchDstW patchSrcW 384 ≠ patchSrcW 384 := by
  refine ⟨by decide, rfl, by decide⟩

/-- C9 (amended): in the legacy v4 layout each core group's 2048-byte region
holds 8 blocks of 256 bytes at fixed offsets: 4 shader-core blocks at
group-relative block indices 0-3, the tiler block at index 4, the
memory-unit block at index 5, one reserved block at index 6 and the
job-manager block at index 7; the header walk copies and patches the seven
non-reserved headers at exactly these offsets and leaves the reserved block
untouched.  (The claimed composition with 2 reserved blocks is off by one:
it would push the job-manager block out of the 8-block group.) -/
theorem v4_group_block_layout (nr_cg : Nat) (bm : Bitmap4) (dst src : Buffer)
    (g b off : Nat) (hg : g < nr_cg) (hoff : off < 4) :
    (b < 4 → patch_dump_buffer_hdr_v4 nr_cg bm dst src (512 * g + 64 * b + off) =
      (if off = 2 then src (512 * g + 64 * b + off) &&& bm.shader
       else src (512 * g + 64 * b + off))) ∧
    (patch_dump_buffer_hdr_v4 nr_cg bm dst src (512 * g + 64 * 4 + off) =
      (if off = 2 then src (512 * g + 64 * 4 + off) &&& bm.tiler
       else src (512 * g + 64 * 4 + off))) ∧
    (patch_dump_buffer_hdr_v4 nr_cg bm dst src (512 * g + 64 * 5 + off) =
      (if off = 2 then src (512 * g + 64 * 5 + off) &&& bm.mmu_l2
       else src (512 * g + 64 * 5 + off))) ∧
    (patch_dump_buffer_hdr_v4 nr_cg bm dst src (512 * g + 64 * 6 + off) =
      dst (512 * g + 64 * 6 + off)) ∧
    (patch_dump_buffer_hdr_v4 nr_cg bm dst src (512 * g + 64 * 7 + off) =
      (if off = 2 then src (512 * g + 64 * 7 + off) &&& bm.jm
       else src (512 * g + 64 * 7 + off))) := by
  refine ⟨?_, ?_, ?_, ?_, ?_⟩
  · intro hb
    rw [patch_v4_char, if_pos (by refine ⟨by omega, by omega, by omega⟩),
      show (512 * g + 64 * b + off) % 512 / 64 = b by omega]
    by_cases hoe : off = 2
    · rw [if_pos (by omega), if_pos hoe]
      unfold v4MaskOf
      rw [if_pos hb]
    · rw [if_neg (by omega), if_neg hoe]
  · rw [patch_v4_char, if_pos (by refine ⟨by omega, by omega, by omega⟩),
      show (512 * g + 64 * 4 + off) % 512 / 64 = 4 by omega]
    by_cases hoe : off = 2
    · rw [if_pos (by omega), if_pos hoe]
      unfold v4MaskOf
      norm_num
    · rw [if_neg (by omega), if_neg hoe]
  · rw [patch_v4_char, if_pos (by refine ⟨by omega, by omega, by omega⟩),
      show (512 * g + 64 * 5 + off) % 512 / 64 = 5 by omega]
    by_cases hoe : off = 2
    · rw [if_pos (by omega), if_pos hoe]
      unfold v4MaskOf
      norm_num
    · rw [if_neg (by omega), if_neg hoe]
  · rw [patch_v4_char, if_neg (by omega)]
  · rw [patch_v4_char, if_pos (by refine ⟨by omega, by omega, by omega⟩),
      show (512 * g + 64 * 7 + off) % 512 / 64 = 7 by omega]
    by_cases hoe : off = 2
    · rw [if_pos (by omega), if_pos hoe]
      unfold v4MaskOf
      norm_num
    · rw [if_neg (by omega), if_neg hoe]

theorem v4_group_block_layout_witness :
    patch_dump_buffer_hdr_v4 1 bmW patchDstW patchSrcW (512 * 0 + 64 * 6 + 1) =
      patchDstW (512 * 0 + 64 * 6 + 1) ∧
    patch_dump_buffer_hdr_v4 1 bmW patchDstW patchSrcW (512 * 0 + 64 * 7 + 2) =
      (if 2 = 2 then patchSrcW (512 * 0 + 64 * 7 + 2) &&& bmW.jm
       else patchSrcW (512 * 0 + 64 * 7 + 2)) :=
  ⟨(v4_group_block_layout 1 bmW patchDstW patchSrcW 0 0 1 (by decide) (by decide)).2.2.2.1,
   (v4_group_block_layout 1 bmW patchDstW patchSrcW 0 0 2 (by decide) (by decide)).2.2.2.2⟩

/-- C9 counterexample: with one core group, an all-zero accumulation buffer
and an all-one shared buffer, exactly one of the eight block headers of the
group is left untouched by the walk (the reserved block, index 6) — not the
two the claimed 4+1+1+2+1 composition would leave — and the job-manager
header is copied at block index 7, which a composition with two reserved
blocks after the memory-unit block would place outside the 8-block group. -/
theorem v4_group_block_layout_cex :
    ((List.range 8).filter
      (fun b => patch_dump_buffer_hdr_v4 1 bmW patchDstW patchSrcW (64 * b) == 0)).length = 1 ∧
    (1 : Nat) ≠ 2 ∧
    patch_dump_buffer_hdr_v4 1 bmW patchDstW patchSrcW (64 * 7) = 1 := by
  refine ⟨by decide, by decide, by decide⟩
